import Mathlib

/-!
Shallow embedding of `src/notify.py` (an AI-updates polling notifier):
state store, source fetch results, change detection, categorization,
message assembly and chunked delivery, plus the top-level `main` control
flow (webhook guard, delivery, final state save).
-/

namespace Notify

/-- Python `dict.get` on a string-keyed dict, modelled as an association list. -/
def dictGet (m : List (String × String)) (k : String) : Option String :=
  match m with
  | [] => none
  | (k', v) :: rest => if k' = k then some v else dictGet rest k

/-- Python `d[k] = v` on a string-keyed dict: replace in place or append. -/
def dictSet (m : List (String × String)) (k v : String) : List (String × String) :=
  match m with
  | [] => [(k, v)]
  | (k', v') :: rest => if k' = k then (k, v) :: rest else (k', v') :: dictSet rest k v

/-- The persisted state: the three mappings of `state.json`
(`npm`, `github`, `rss`), each source-id to last-seen marker. -/
structure AppState where
  npm : List (String × String)
  github : List (String × String)
  rss : List (String × String)
deriving DecidableEq

/-- The empty skeleton returned by `load_state` when no file exists. -/
def emptyState : AppState := ⟨[], [], []⟩

/-- Result of `get_github_latest_release`: tag, display name, html url. -/
structure RelInfo where
  tag : String
  name : String
  url : String
deriving DecidableEq

/-- Result of `get_openai_rss_latest_id`: title, link, entry id. -/
structure FeedInfo where
  title : String
  link : String
  id : String
deriving DecidableEq

/-- The configured sources: `NPM_PACKAGES` and `GITHUB_RELEASES`
(owner, repo, label). The feed URL is fixed, so it needs no field. -/
structure Config where
  npmPackages : List String
  githubReleases : List (String × String × String)

/-- The monitored npm package list from the source. -/
def NPM_PACKAGES : List String :=
  ["@openai/codex", "@anthropic-ai/claude-code"]

/-- The monitored GitHub release list from the source. -/
def GITHUB_RELEASES : List (String × String × String) :=
  [("openai", "codex", "openai/codex")]

/-- The program's static configuration. -/
def theConfig : Config := ⟨NPM_PACKAGES, GITHUB_RELEASES⟩

/-- One run's fetch outcomes, per source. Fetchers absorb every failure
into `none`, so a fetcher is a pure map from identifier to optional result. -/
structure FetchResults where
  npmLatest : String → Option String
  ghLatest : String → String → Option RelInfo
  rssLatest : Option FeedInfo

/-- The three notification buckets. -/
inductive Bucket where
  | openai
  | anthropic
  | other
deriving DecidableEq

/-- The `notifications` dict of `main`: one ordered list of lines per bucket. -/
structure Notifications where
  openai : List String
  anthropic : List String
  other : List String
deriving DecidableEq

/-- The initial `notifications` value: all buckets empty. -/
def Notifications.empty : Notifications := ⟨[], [], []⟩

/-- Total number of notification lines across the buckets. -/
def Notifications.count (n : Notifications) : Nat :=
  n.openai.length + n.anthropic.length + n.other.length

/-- Python `pat in s`: substring containment. -/
def containsStr (s pat : String) : Bool :=
  decide (pat.toList <:+: s.toList)

/-- Python `str.lower()`, character by character (the inputs here are
ASCII keywords, emoji and identifiers, on which this agrees with Python). -/
def strToLower (s : String) : String :=
  ⟨s.data.map Char.toLower⟩

/-- The categorization of `add_notification`: lower-case the concatenation
of text and source name, then keyword precedence openai, anthropic/claude,
other. -/
def categorize (text sourceName : String) : Bucket :=
  let lowerText := strToLower (text ++ sourceName)
  if containsStr lowerText "openai" then .openai
  else if containsStr lowerText "anthropic" || containsStr lowerText "claude" then .anthropic
  else .other

/-- `add_notification`: append the text to the bucket chosen by `categorize`. -/
def addNotification (n : Notifications) (text sourceName : String) : Notifications :=
  match categorize text sourceName with
  | .openai => { n with openai := n.openai ++ [text] }
  | .anthropic => { n with anthropic := n.anthropic ++ [text] }
  | .other => { n with other := n.other ++ [text] }

/-- The npm notification body built in the npm loop of `main`. -/
def npmMsg (pkg latest : String) : String :=
  "📦 npm: `" ++ pkg ++ "` → **" ++ latest ++ "**\nhttps://www.npmjs.com/package/" ++ pkg

/-- The GitHub notification body built in the releases loop of `main`. -/
def ghMsg (label name tag url : String) : String :=
  "🏷️ GitHub: `" ++ label ++ "` → **" ++ name ++ "** (" ++ tag ++ ")\n" ++ url

/-- The RSS notification body built in the feed section of `main`. -/
def rssMsg (title link : String) : String :=
  "📰 News: **" ++ title ++ "**\n" ++ link

/-- One iteration of the npm loop in `main`: skip a falsy fetch
(`None` or empty), skip an unchanged marker, otherwise record the new
marker and emit one notification line. -/
def npmStep (fr : FetchResults) (acc : AppState × Notifications) (pkg : String) :
    AppState × Notifications :=
  match fr.npmLatest pkg with
  | none => acc
  | some latest =>
    if latest = "" then acc
    else if dictGet acc.1.npm pkg = some latest then acc
    else ({ acc.1 with npm := dictSet acc.1.npm pkg latest },
          addNotification acc.2 (npmMsg pkg latest) pkg)

/-- One iteration of the GitHub releases loop in `main`. -/
def ghStep (fr : FetchResults) (acc : AppState × Notifications)
    (t : String × String × String) : AppState × Notifications :=
  match fr.ghLatest t.1 t.2.1 with
  | none => acc
  | some rel =>
    if rel.tag = "" then acc
    else if dictGet acc.1.github t.2.2 = some rel.tag then acc
    else ({ acc.1 with github := dictSet acc.1.github t.2.2 rel.tag },
          addNotification acc.2 (ghMsg t.2.2 rel.name rel.tag rel.url) t.2.2)

/-- The RSS section of `main`: guarded by a present, non-empty entry id,
keyed under `openai_news`, with source name `openai`. -/
def rssStep (fr : FetchResults) (acc : AppState × Notifications) :
    AppState × Notifications :=
  match fr.rssLatest with
  | none => acc
  | some latest =>
    if latest.id = "" then acc
    else if dictGet acc.1.rss "openai_news" = some latest.id then acc
    else ({ acc.1 with rss := dictSet acc.1.rss "openai_news" latest.id },
          addNotification acc.2 (rssMsg latest.title latest.link) "openai")

/-- The full detection phase of `main`: npm packages in configured order,
then GitHub releases in configured order, then the feed. -/
def runDetect (cfg : Config) (fr : FetchResults) (st : AppState) :
    AppState × Notifications :=
  rssStep fr
    (cfg.githubReleases.foldl (ghStep fr)
      (cfg.npmPackages.foldl (npmStep fr) (st, Notifications.empty)))

/-- The OpenAI section header of the assembled message. -/
def openaiHeader : String := "🟦 **OpenAI Updates**"

/-- The Anthropic section header of the assembled message. -/
def anthropicHeader : String := "🟧 **Anthropic Updates**"

/-- The Other section header of the assembled message. -/
def otherHeader : String := "⬜ **Other Updates**"

/-- The banner line prefixed to every sent message. -/
def banner : String := "🚨 **AI Tech Updates**"

/-- `final_blocks` as built in `main`: for each non-empty bucket a header,
its lines, and (for the first two sections) a trailing spacer. -/
def buildBlocks (n : Notifications) : List String :=
  (if n.openai = [] then [] else openaiHeader :: (n.openai ++ [""])) ++
  (if n.anthropic = [] then [] else anthropicHeader :: (n.anthropic ++ [""])) ++
  (if n.other = [] then [] else otherHeader :: n.other)

/-- The trailing-empty-string pop of `main`
(`if final_blocks[-1] == "": final_blocks.pop()`). -/
def trimTrailingSpacer (l : List String) : List String :=
  if l.getLast? = some "" then l.dropLast else l

/-- The message-construction tail of `main`: `none` when `final_blocks` is
empty (nothing sent), otherwise the banner, a blank line and the joined
blocks. -/
def assembleMessage (n : Notifications) : Option String :=
  let blocks := buildBlocks n
  if blocks = [] then none
  else some (banner ++ "\n\n" ++ String.intercalate "\n" (trimTrailingSpacer blocks))

/-- The chunking of `discord_post`: successive slices of length `k`
(`[content[i:i+k] for i in range(0, len(content), k)]`). -/
def chunkList (k : Nat) (l : List Char) : List (List Char) :=
  if l = [] ∨ k = 0 then [] else l.take k :: chunkList k (l.drop k)
termination_by l.length
decreasing_by
  rename_i h
  push_neg at h
  have h1 : l.length ≠ 0 := by simpa [List.length_eq_zero] using h.1
  simp only [List.length_drop]
  omega

/-- The chunks `discord_post` delivers, at the fixed limit 1900. -/
def discordChunks (content : List Char) : List (List Char) :=
  chunkList 1900 content

/-- Observable trace of one `main` run: the states passed to `save_state`
in order, the body handed to `discord_post` (if reached), and whether the
process exits successfully. -/
structure RunTrace where
  saves : List AppState
  posted : Option String
  ok : Bool
deriving DecidableEq

/-- The control flow of `main`: missing webhook returns at once after a
warning; otherwise detect, assemble, deliver when a message exists (an
unhandled delivery error aborts before `save_state`), then save. -/
def runMain (webhook : Option String) (cfg : Config) (fr : FetchResults)
    (st0 : AppState) (deliveryOk : Bool) : RunTrace :=
  match webhook with
  | none => { saves := [], posted := none, ok := true }
  | some _ =>
    let r := runDetect cfg fr st0
    match assembleMessage r.2 with
    | none => { saves := [r.1], posted := none, ok := true }
    | some body =>
      if deliveryOk then { saves := [r.1], posted := some body, ok := true }
      else { saves := [], posted := some body, ok := false }

/-! ### Dictionary lemmas -/

theorem dictGet_dictSet_self (m : List (String × String)) (k v : String) :
    dictGet (dictSet m k v) k = some v := by
  induction m with
  | nil => simp [dictGet, dictSet]
  | cons p rest ih =>
    obtain ⟨k', v'⟩ := p
    by_cases h : k' = k <;> simp [dictGet, dictSet, h, ih]

theorem dictGet_dictSet_ne (m : List (String × String)) (k k' v : String)
    (h : k' ≠ k) : dictGet (dictSet m k v) k' = dictGet m k' := by
  have hk : k ≠ k' := fun hh => h hh.symm
  induction m with
  | nil => simp [dictGet, dictSet, hk]
  | cons p rest ih =>
    obtain ⟨ka, va⟩ := p
    by_cases hka : ka = k
    · subst hka
      simp [dictGet, dictSet, hk]
    · simp [dictGet, dictSet, hka, ih]

/-! ### Notification counting -/

theorem addNotification_count (n : Notifications) (t s : String) :
    (addNotification n t s).count = n.count + 1 := by
  unfold addNotification
  cases categorize t s <;> simp [Notifications.count] <;> omega

/-! ### Per-source consistency: the stored marker agrees with the fetch -/

/-- The stored npm marker for `p` agrees with a present, non-empty fetch. -/
def npmOK (fr : FetchResults) (st : AppState) (p : String) : Prop :=
  ∀ m, fr.npmLatest p = some m → m ≠ "" → dictGet st.npm p = some m

/-- The stored GitHub marker for a triple's label agrees with a present,
non-tag-empty fetch. -/
def ghOK (fr : FetchResults) (st : AppState) (t : String × String × String) : Prop :=
  ∀ rel, fr.ghLatest t.1 t.2.1 = some rel → rel.tag ≠ "" →
    dictGet st.github t.2.2 = some rel.tag

/-- The stored rss marker agrees with a present, non-id-empty feed fetch. -/
def rssOK (fr : FetchResults) (st : AppState) : Prop :=
  ∀ info, fr.rssLatest = some info → info.id ≠ "" →
    dictGet st.rss "openai_news" = some info.id

theorem npmStep_noop (fr : FetchResults) (acc : AppState × Notifications)
    (p : String) (h : npmOK fr acc.1 p) : npmStep fr acc p = acc := by
  unfold npmStep
  cases hf : fr.npmLatest p with
  | none => rfl
  | some m =>
    by_cases hm : m = ""
    · simp [hm]
    · simp [hm, h m hf hm]

theorem npmStep_self (fr : FetchResults) (acc : AppState × Notifications)
    (p : String) : npmOK fr (npmStep fr acc p).1 p := by
  intro m hf hm
  unfold npmStep
  rw [hf]
  simp only [hm, if_false]
  split
  · rename_i hprev
    exact hprev
  · simp [dictGet_dictSet_self]

theorem npmStep_preserves_npmOK (fr : FetchResults) (acc : AppState × Notifications)
    (p q : String) (h : npmOK fr acc.1 q) : npmOK fr (npmStep fr acc p).1 q := by
  intro m hf hm
  unfold npmStep
  cases hfp : fr.npmLatest p with
  | none => exact h m hf hm
  | some mp =>
    by_cases hmp : mp = ""
    · simp only [hmp, if_true]
      exact h m hf hm
    · simp only [hmp, if_false]
      split
      · exact h m hf hm
      · by_cases hpq : p = q
        · subst hpq
          rw [hf] at hfp
          cases hfp
          simp [dictGet_dictSet_self]
        · have : q ≠ p := fun hh => hpq hh.symm
          simp only []
          rw [dictGet_dictSet_ne _ _ _ _ this]
          exact h m hf hm

theorem ghStep_noop (fr : FetchResults) (acc : AppState × Notifications)
    (t : String × String × String) (h : ghOK fr acc.1 t) : ghStep fr acc t = acc := by
  unfold ghStep
  cases hf : fr.ghLatest t.1 t.2.1 with
  | none => rfl
  | some rel =>
    by_cases hm : rel.tag = ""
    · simp [hm]
    · simp [hm, h rel hf hm]

theorem ghStep_self (fr : FetchResults) (acc : AppState × Notifications)
    (t : String × String × String) : ghOK fr (ghStep fr acc t).1 t := by
  intro rel hf hm
  unfold ghStep
  rw [hf]
  simp only [hm, if_false]
  split
  · rename_i hprev
    exact hprev
  · simp [dictGet_dictSet_self]

theorem rssStep_noop (fr : FetchResults) (acc : AppState × Notifications)
    (h : rssOK fr acc.1) : rssStep fr acc = acc := by
  unfold rssStep
  cases hf : fr.rssLatest with
  | none => rfl
  | some info =>
    by_cases hm : info.id = ""
    · simp [hm]
    · simp [hm, h info hf hm]

theorem rssStep_self (fr : FetchResults) (acc : AppState × Notifications) :
    rssOK fr (rssStep fr acc).1 := by
  intro info hf hm
  unfold rssStep
  rw [hf]
  simp only [hm, if_false]
  split
  · rename_i hprev
    exact hprev
  · simp [dictGet_dictSet_self]

/-! ### Frame lemmas: each step touches only its own mapping -/

theorem ghStep_npm (fr : FetchResults) (acc : AppState × Notifications)
    (t : String × String × String) : (ghStep fr acc t).1.npm = acc.1.npm := by
  unfold ghStep
  cases fr.ghLatest t.1 t.2.1 <;> simp
  split
  · rfl
  · split <;> rfl

theorem rssStep_npm (fr : FetchResults) (acc : AppState × Notifications) :
    (rssStep fr acc).1.npm = acc.1.npm := by
  unfold rssStep
  cases fr.rssLatest <;> simp
  split
  · rfl
  · split <;> rfl

theorem rssStep_github (fr : FetchResults) (acc : AppState × Notifications) :
    (rssStep fr acc).1.github = acc.1.github := by
  unfold rssStep
  cases fr.rssLatest <;> simp
  split
  · rfl
  · split <;> rfl

theorem npmOK_congr (fr : FetchResults) {st st' : AppState} (p : String)
    (hnpm : st'.npm = st.npm) (h : npmOK fr st p) : npmOK fr st' p := by
  intro m hf hm
  rw [hnpm]
  exact h m hf hm

theorem ghOK_congr (fr : FetchResults) {st st' : AppState}
    (t : String × String × String) (hgh : st'.github = st.github)
    (h : ghOK fr st t) : ghOK fr st' t := by
  intro rel hf hm
  rw [hgh]
  exact h rel hf hm

/-! ### Detection over the program's configuration -/

theorem runDetect_theConfig (fr : FetchResults) (st : AppState) :
    runDetect theConfig fr st =
      rssStep fr (ghStep fr
        (npmStep fr (npmStep fr (st, Notifications.empty) "@openai/codex")
          "@anthropic-ai/claude-code")
        ("openai", "codex", "openai/codex")) := rfl

theorem detect_consistent (fr : FetchResults) (st : AppState) :
    npmOK fr (runDetect theConfig fr st).1 "@openai/codex" ∧
    npmOK fr (runDetect theConfig fr st).1 "@anthropic-ai/claude-code" ∧
    ghOK fr (runDetect theConfig fr st).1 ("openai", "codex", "openai/codex") ∧
    rssOK fr (runDetect theConfig fr st).1 := by
  rw [runDetect_theConfig]
  refine ⟨?_, ?_, ?_, ?_⟩
  · exact npmOK_congr fr _ (rssStep_npm fr _)
      (npmOK_congr fr _ (ghStep_npm fr _ _)
        (npmStep_preserves_npmOK fr _ _ _ (npmStep_self fr _ _)))
  · exact npmOK_congr fr _ (rssStep_npm fr _)
      (npmOK_congr fr _ (ghStep_npm fr _ _) (npmStep_self fr _ _))
  · exact ghOK_congr fr _ (rssStep_github fr _) (ghStep_self fr _ _)
  · exact rssStep_self fr _

theorem detect_reRun_noop (fr : FetchResults) (st1 : AppState)
    (h1 : npmOK fr st1 "@openai/codex")
    (h2 : npmOK fr st1 "@anthropic-ai/claude-code")
    (h3 : ghOK fr st1 ("openai", "codex", "openai/codex"))
    (h4 : rssOK fr st1) :
    runDetect theConfig fr st1 = (st1, Notifications.empty) := by
  rw [runDetect_theConfig]
  rw [npmStep_noop fr (st1, Notifications.empty) _ h1]
  rw [npmStep_noop fr (st1, Notifications.empty) _ h2]
  rw [ghStep_noop fr (st1, Notifications.empty) _ h3]
  exact rssStep_noop fr (st1, Notifications.empty) h4

/-! ### Chunking lemmas -/

theorem chunkList_flatten (k : Nat) (hk : 0 < k) (l : List Char) :
    (chunkList k l).flatten = l := by
  rw [chunkList]
  by_cases h : l = []
  · simp [h]
  · rw [if_neg (by simp [h, hk.ne'])]
    rw [List.flatten_cons]
    rw [chunkList_flatten k hk (l.drop k)]
    exact List.take_append_drop k l
termination_by l.length
decreasing_by
  have h1 : l.length ≠ 0 := by simpa [List.length_eq_zero] using h
  simp only [List.length_drop]
  omega

theorem chunkList_le (k : Nat) (l : List Char) :
    ∀ c ∈ chunkList k l, c.length ≤ k := by
  intro c hc
  rw [chunkList] at hc
  by_cases h : l = [] ∨ k = 0
  · rw [if_pos h] at hc
    simp at hc
  · rw [if_neg h] at hc
    obtain ⟨hne, hk0⟩ := not_or.mp h
    rcases List.mem_cons.mp hc with h1 | h2
    · subst h1
      simp [List.length_take]
    · exact chunkList_le k (l.drop k) c h2
termination_by l.length
decreasing_by
  have h1 : l.length ≠ 0 := by simpa [List.length_eq_zero] using hne
  have h2 : k ≠ 0 := hk0
  simp only [List.length_drop]
  omega

theorem chunkList_5000 (l : List Char) (hl : l.length = 5000) :
    (chunkList 1900 l).map List.length = [1900, 1900, 1200] := by
  have h0 : l ≠ [] := by intro hh; rw [hh] at hl; simp at hl
  rw [chunkList, if_neg (not_or.mpr ⟨h0, by omega⟩)]
  have hd1 : (l.drop 1900).length = 3100 := by simp [List.length_drop, hl]
  have h1 : l.drop 1900 ≠ [] := by intro hh; rw [hh] at hd1; simp at hd1
  rw [chunkList, if_neg (not_or.mpr ⟨h1, by omega⟩)]
  have hd2 : ((l.drop 1900).drop 1900).length = 1200 := by
    simp [List.length_drop, hl]
  have h2 : (l.drop 1900).drop 1900 ≠ [] := by intro hh; rw [hh] at hd2; simp at hd2
  rw [chunkList, if_neg (not_or.mpr ⟨h2, by omega⟩)]
  have hd3 : (((l.drop 1900).drop 1900).drop 1900).length = 0 := by
    simp [List.length_drop, hl]
  rw [List.eq_nil_of_length_eq_zero hd3, chunkList]
  simp [List.length_take, hl, hd1, hd2]

/-! ### Message assembly lemmas -/

/-- Modelled from the spec: the non-empty sections in display order, each a
header followed by the bucket's lines. Compared against `buildBlocks`. -/
def sectionsOf (n : Notifications) : List (List String) :=
  (if n.openai = [] then [] else [openaiHeader :: n.openai]) ++
  (if n.anthropic = [] then [] else [anthropicHeader :: n.anthropic]) ++
  (if n.other = [] then [] else [otherHeader :: n.other])

theorem trim_concat (L : List String) : trimTrailingSpacer (L ++ [""]) = L := by
  simp [trimTrailingSpacer, List.getLast?_concat, List.dropLast_concat]

theorem getLast?_section (x : String) (l : List String) (hl : l ≠ [])
    (h : "" ∉ l) (pre : List String) :
    (pre ++ x :: l).getLast? ≠ some "" := by
  rw [List.getLast?_append_cons]
  intro hlast
  have : (x :: l).getLast? = l.getLast? := by
    cases l with
    | nil => exact absurd rfl hl
    | cons b bs =>
      exact List.getLast?_append_cons [x] b bs
  rw [this] at hlast
  exact h (List.mem_of_mem_getLast? hlast)

theorem trim_buildBlocks (n : Notifications) (h : "" ∉ n.other) :
    trimTrailingSpacer (buildBlocks n) = List.intercalate [""] (sectionsOf n) := by
  by_cases ho : n.openai = [] <;> by_cases ha : n.anthropic = [] <;>
    by_cases hoth : n.other = []
  · simp [buildBlocks, sectionsOf, ho, ha, hoth, trimTrailingSpacer, List.intercalate]
  · -- only other
    rw [show buildBlocks n = [] ++ otherHeader :: n.other by
      simp [buildBlocks, ho, ha, hoth]]
    rw [trimTrailingSpacer, if_neg]
    · simp [sectionsOf, ho, ha, hoth, List.intercalate]
    · exact getLast?_section _ _ hoth h []
  · -- only anthropic
    rw [show buildBlocks n = (anthropicHeader :: n.anthropic) ++ [""] by
      simp [buildBlocks, ho, ha, hoth]]
    rw [trim_concat]
    simp [sectionsOf, ho, ha, hoth, List.intercalate]
  · -- anthropic ++ other
    rw [show buildBlocks n = (anthropicHeader :: (n.anthropic ++ [""])) ++ otherHeader :: n.other by
      simp [buildBlocks, ho, ha, hoth]]
    rw [trimTrailingSpacer, if_neg]
    · simp [sectionsOf, ho, ha, hoth, List.intercalate]
    · exact getLast?_section _ _ hoth h _
  · -- only openai
    rw [show buildBlocks n = (openaiHeader :: n.openai) ++ [""] by
      simp [buildBlocks, ho, ha, hoth]]
    rw [trim_concat]
    simp [sectionsOf, ho, ha, hoth, List.intercalate]
  · -- openai ++ other
    rw [show buildBlocks n = (openaiHeader :: (n.openai ++ [""])) ++ otherHeader :: n.other by
      simp [buildBlocks, ho, ha, hoth]]
    rw [trimTrailingSpacer, if_neg]
    · simp [sectionsOf, ho, ha, hoth, List.intercalate]
    · exact getLast?_section _ _ hoth h _
  · -- openai ++ anthropic
    rw [show buildBlocks n = ((openaiHeader :: (n.openai ++ [""])) ++ anthropicHeader :: n.anthropic) ++ [""] by
      simp [buildBlocks, ho, ha, hoth]]
    rw [trim_concat]
    simp [sectionsOf, ho, ha, hoth, List.intercalate]
  · -- all three
    rw [show buildBlocks n = (openaiHeader :: (n.openai ++ [""])) ++ (anthropicHeader :: (n.anthropic ++ [""])) ++ otherHeader :: n.other by
      simp [buildBlocks, ho, ha, hoth]]
    rw [trimTrailingSpacer, if_neg]
    · simp [sectionsOf, ho, ha, hoth, List.intercalate]
    · rw [List.getLast?_append_of_ne_nil _ (by simp)]
      simpa using getLast?_section otherHeader n.other hoth h []

theorem buildBlocks_eq_nil (n : Notifications) :
    buildBlocks n = [] ↔ n.openai = [] ∧ n.anthropic = [] ∧ n.other = [] := by
  by_cases ho : n.openai = [] <;> by_cases ha : n.anthropic = [] <;>
    by_cases hoth : n.other = [] <;> simp [buildBlocks, ho, ha, hoth]

/-! ### Concrete fetch scenarios used as witnesses and counterexamples -/

/-- A fetch outcome where every npm lookup reports version `1.0.0` and the
other sources are unavailable. -/
def frEx : FetchResults := ⟨fun _ => some "1.0.0", fun _ _ => none, none⟩

/-- A one-package configuration. -/
def cfgW : Config := ⟨["pkgA"], []⟩

/-- A fetch outcome where every npm lookup reports version `2.0`. -/
def frW : FetchResults := ⟨fun _ => some "2.0", fun _ _ => none, none⟩

/-- A fetch outcome where every source is unavailable. -/
def frN : FetchResults := ⟨fun _ => none, fun _ _ => none, none⟩

/-- A fetch outcome succeeding with empty markers everywhere. -/
def frE : FetchResults :=
  ⟨fun _ => some "", fun _ _ => some ⟨"", "name", "url"⟩, some ⟨"title", "link", ""⟩⟩

/-! ## Claim theorems -/

set_option maxRecDepth 8192 in
/-- C1 (counterexample): with the webhook variable absent, the run invokes
no save at all — even though detection on these fetch results would have
advanced the state — contradicting the claim that fetch, change detection
and state persistence still happen. -/
theorem webhook_absent_cex :
    (runMain none theConfig frEx emptyState true).saves = [] ∧
    (runDetect theConfig frEx emptyState).1 ≠ emptyState := by
  exact ⟨rfl, by decide⟩

/-- C1 (amended): with the webhook variable absent, the run prints a warning
and returns immediately: no detection output is used, no state is saved,
nothing is delivered, and the run exits successfully. -/
theorem webhook_absent_skips_run (cfg : Config) (fr : FetchResults)
    (st : AppState) (d : Bool) :
    runMain none cfg fr st d = ⟨[], none, true⟩ := rfl

set_option maxRecDepth 8192 in
/-- C2 (counterexample): on these inputs a notification message exists and
delivery fails; the run exits with an error, but contrary to the claim the
updated state is not saved (`saves` is empty). -/
theorem delivery_failed_cex :
    (runMain (some "https://hook.example") theConfig frEx emptyState false).ok
      = false ∧
    (runMain (some "https://hook.example") theConfig frEx emptyState false).saves
      = [] := by
  constructor <;> rfl

/-- C2 (amended): when a message exists and delivery fails, the run
terminates with an error and the updated state is not saved — the delivery
exception propagates before `save_state` runs, so the new markers are lost. -/
theorem delivery_failed_loses_state (w : String) (cfg : Config)
    (fr : FetchResults) (st : AppState) (body : String)
    (h : assembleMessage (runDetect cfg fr st).2 = some body) :
    runMain (some w) cfg fr st false = ⟨[], some body, false⟩ := by
  simp [runMain, h]

/-- C2 witness: the amended theorem applied at a concrete failing delivery. -/
theorem delivery_failed_loses_state_witness :
    runMain (some "h") cfgW frW emptyState false =
      ⟨[], some (banner ++ "\n\n" ++ otherHeader ++ "\n" ++ npmMsg "pkgA" "2.0"),
        false⟩ :=
  delivery_failed_loses_state "h" cfgW frW emptyState _ (by decide)

/-- C3 (counterexample): a run without the webhook configured exits
successfully yet performs zero saves, contradicting the claim that every
successful run saves exactly once. -/
theorem no_webhook_success_without_save_cex :
    (runMain none theConfig frEx emptyState true).ok = true ∧
    (runMain none theConfig frEx emptyState true).saves.length = 0 :=
  ⟨rfl, rfl⟩

/-- C3 (amended): every run with the webhook configured that exits
successfully invokes `save_state` exactly once, at the end, on the state
produced by detection — whether or not notifications were sent. -/
theorem successful_run_saves_once (w : String) (cfg : Config)
    (fr : FetchResults) (st : AppState) (d : Bool)
    (h : (runMain (some w) cfg fr st d).ok = true) :
    (runMain (some w) cfg fr st d).saves = [(runDetect cfg fr st).1] := by
  revert h
  simp only [runMain]
  cases hm : assembleMessage (runDetect cfg fr st).2 with
  | none => intro _; rfl
  | some body =>
    cases d with
    | false => intro h; simp at h
    | true => intro _; rfl

/-- C3 witness: the amended theorem applied at a concrete successful run. -/
theorem successful_run_saves_once_witness :
    (runMain (some "h") cfgW frW emptyState true).saves =
      [(runDetect cfgW frW emptyState).1] :=
  successful_run_saves_once "h" cfgW frW emptyState true (by decide)

/-- C4: for each configured source, a present non-empty fetched marker that
differs from the stored one (including no stored marker) makes the step
record the fetched value under that source's category and id and produce
exactly one more notification line. -/
theorem changed_marker_notifies (fr : FetchResults) (st : AppState)
    (ns : Notifications) :
    (∀ pkg latest, fr.npmLatest pkg = some latest → latest ≠ "" →
      dictGet st.npm pkg ≠ some latest →
      dictGet (npmStep fr (st, ns) pkg).1.npm pkg = some latest ∧
      (npmStep fr (st, ns) pkg).2.count = ns.count + 1) ∧
    (∀ t rel, fr.ghLatest t.1 t.2.1 = some rel → rel.tag ≠ "" →
      dictGet st.github t.2.2 ≠ some rel.tag →
      dictGet (ghStep fr (st, ns) t).1.github t.2.2 = some rel.tag ∧
      (ghStep fr (st, ns) t).2.count = ns.count + 1) ∧
    (∀ info, fr.rssLatest = some info → info.id ≠ "" →
      dictGet st.rss "openai_news" ≠ some info.id →
      dictGet (rssStep fr (st, ns)).1.rss "openai_news" = some info.id ∧
      (rssStep fr (st, ns)).2.count = ns.count + 1) := by
  refine ⟨?_, ?_, ?_⟩
  · intro pkg latest hf hne hprev
    unfold npmStep
    rw [hf]
    simp [hne, hprev, dictGet_dictSet_self, addNotification_count]
  · intro t rel hf hne hprev
    unfold ghStep
    rw [hf]
    simp [hne, hprev, dictGet_dictSet_self, addNotification_count]
  · intro info hf hne hprev
    unfold rssStep
    rw [hf]
    simp [hne, hprev, dictGet_dictSet_self, addNotification_count]

/-- C4 witness: the theorem applied at a concrete fresh npm marker. -/
theorem changed_marker_notifies_witness :
    dictGet (npmStep frW (emptyState, Notifications.empty) "pkgA").1.npm "pkgA"
      = some "2.0" ∧
    (npmStep frW (emptyState, Notifications.empty) "pkgA").2.count =
      Notifications.empty.count + 1 :=
  (changed_marker_notifies frW emptyState Notifications.empty).1 "pkgA" "2.0"
    rfl (by decide) (by decide)

/-- C5: for each configured source, an absent fetch leaves the whole state
and the notification buckets untouched. -/
theorem absent_fetch_skips (fr : FetchResults) (st : AppState)
    (ns : Notifications) :
    (∀ pkg, fr.npmLatest pkg = none → npmStep fr (st, ns) pkg = (st, ns)) ∧
    (∀ t, fr.ghLatest t.1 t.2.1 = none → ghStep fr (st, ns) t = (st, ns)) ∧
    (fr.rssLatest = none → rssStep fr (st, ns) = (st, ns)) := by
  refine ⟨?_, ?_, ?_⟩
  · intro pkg hf
    unfold npmStep
    rw [hf]
  · intro t hf
    unfold ghStep
    rw [hf]
  · intro hf
    unfold rssStep
    rw [hf]

/-- C5 witness: the theorem applied at a concrete absent npm fetch. -/
theorem absent_fetch_skips_witness :
    npmStep frN (emptyState, Notifications.empty) "pkgA" =
      (emptyState, Notifications.empty) :=
  (absent_fetch_skips frN emptyState Notifications.empty).1 "pkgA" rfl

/-- C6: running the change detector twice with the same fetch results,
the second run starting from the state the first run ends with (the state
a successful run saves), produces zero notification lines. -/
theorem detect_idempotent (fr : FetchResults) (st : AppState) :
    (runDetect theConfig fr (runDetect theConfig fr st).1).2 =
      Notifications.empty := by
  obtain ⟨h1, h2, h3, h4⟩ := detect_consistent fr st
  rw [detect_reRun_noop fr _ h1 h2 h3 h4]

/-- C7: the categorizer lower-cases the concatenation of line text and
source label and classifies by substring with precedence openai, then
anthropic or claude, then other; the three spec examples land in the
OpenAI, Anthropic and Other buckets respectively. -/
theorem categorize_precedence :
    (∀ text src : String,
      (("openai".toList <:+: (strToLower (text ++ src)).toList) →
        categorize text src = Bucket.openai) ∧
      (¬ ("openai".toList <:+: (strToLower (text ++ src)).toList) →
        ("anthropic".toList <:+: (strToLower (text ++ src)).toList ∨
         "claude".toList <:+: (strToLower (text ++ src)).toList) →
        categorize text src = Bucket.anthropic) ∧
      (¬ ("openai".toList <:+: (strToLower (text ++ src)).toList) →
        ¬ ("anthropic".toList <:+: (strToLower (text ++ src)).toList) →
        ¬ ("claude".toList <:+: (strToLower (text ++ src)).toList) →
        categorize text src = Bucket.other)) ∧
    categorize "Update" "OpenAI/codex" = Bucket.openai ∧
    categorize "release out" "claude-code" = Bucket.anthropic ∧
    categorize "update" "misc" = Bucket.other := by
  refine ⟨fun text src => ⟨?_, ?_, ?_⟩, by decide, by decide, by decide⟩
  · intro hin
    have hb : containsStr (strToLower (text ++ src)) "openai" = true :=
      decide_eq_true hin
    simp [categorize, hb]
  · intro hout hor
    have hbo : containsStr (strToLower (text ++ src)) "openai" = false :=
      decide_eq_false hout
    rcases hor with h1 | h2
    · have hb : containsStr (strToLower (text ++ src)) "anthropic" = true :=
        decide_eq_true h1
      simp [categorize, hbo, hb]
    · have hb : containsStr (strToLower (text ++ src)) "claude" = true :=
        decide_eq_true h2
      simp [categorize, hbo, hb]
  · intro h1 h2 h3
    have hb1 : containsStr (strToLower (text ++ src)) "openai" = false :=
      decide_eq_false h1
    have hb2 : containsStr (strToLower (text ++ src)) "anthropic" = false :=
      decide_eq_false h2
    have hb3 : containsStr (strToLower (text ++ src)) "claude" = false :=
      decide_eq_false h3
    simp [categorize, hb1, hb2, hb3]

/-- C7 witness: the theorem applied at a concrete openai-keyword input. -/
theorem categorize_precedence_witness :
    ("openai".toList <:+: (strToLower ("Update" ++ "OpenAI/codex")).toList) ∧
    categorize "Update" "OpenAI/codex" = Bucket.openai :=
  ⟨by decide, (categorize_precedence.1 "Update" "OpenAI/codex").1 (by decide)⟩

/-- C8: the assembled blocks are exactly the non-empty sections in display
order OpenAI, Anthropic, Other, separated by single blank spacers with no
trailing spacer; no message is produced exactly when all buckets are empty,
otherwise the message is the banner, a blank line and the joined blocks;
the spec's OpenAI/Other example assembles as stated. -/
theorem assembler_spec (n : Notifications) (h : "" ∉ n.other) :
    trimTrailingSpacer (buildBlocks n) = List.intercalate [""] (sectionsOf n) ∧
    (assembleMessage n = none ↔
      n.openai = [] ∧ n.anthropic = [] ∧ n.other = []) ∧
    (buildBlocks n ≠ [] →
      assembleMessage n = some (banner ++ "\n\n" ++
        String.intercalate "\n" (List.intercalate [""] (sectionsOf n)))) ∧
    assembleMessage ⟨["A"], [], ["B", "C"]⟩ = some (banner ++ "\n\n" ++
      String.intercalate "\n" [openaiHeader, "A", "", otherHeader, "B", "C"]) := by
  refine ⟨trim_buildBlocks n h, ?_, ?_, by decide⟩
  · constructor
    · intro hmsg
      by_cases hb : buildBlocks n = []
      · exact (buildBlocks_eq_nil n).mp hb
      · simp only [assembleMessage] at hmsg
        rw [if_neg hb] at hmsg
        exact absurd hmsg (by simp)
    · intro hall
      have hb : buildBlocks n = [] := (buildBlocks_eq_nil n).mpr hall
      simp [assembleMessage, hb]
  · intro hne
    simp only [assembleMessage]
    rw [if_neg hne, trim_buildBlocks n h]

/-- C8 witness: the theorem applied at the spec's example buckets. -/
theorem assembler_spec_witness :
    ("" ∉ (Notifications.mk ["A"] [] ["B", "C"]).other) ∧
    trimTrailingSpacer (buildBlocks ⟨["A"], [], ["B", "C"]⟩) =
      List.intercalate [""] (sectionsOf ⟨["A"], [], ["B", "C"]⟩) :=
  ⟨by decide, (assembler_spec ⟨["A"], [], ["B", "C"]⟩ (by decide)).1⟩

/-- C9: delivery chunks are ordered, concatenate back to the original body,
each is at most 1900 characters, and a 5000-character body splits into
exactly three chunks of lengths 1900, 1900 and 1200. -/
theorem discord_chunking :
    (∀ l : List Char, (discordChunks l).flatten = l ∧
      ∀ c ∈ discordChunks l, c.length ≤ 1900) ∧
    (∀ l : List Char, l.length = 5000 →
      (discordChunks l).map List.length = [1900, 1900, 1200]) :=
  ⟨fun l => ⟨chunkList_flatten 1900 (by omega) l, chunkList_le 1900 l⟩,
   fun l hl => chunkList_5000 l hl⟩

/-- C9 witness: the theorem applied at a concrete 5000-character body. -/
theorem discord_chunking_witness :
    (List.replicate 5000 'a').length = 5000 ∧
    (discordChunks (List.replicate 5000 'a')).map List.length =
      [1900, 1900, 1200] :=
  ⟨List.length_replicate 5000 'a',
   discord_chunking.2 (List.replicate 5000 'a') (List.length_replicate 5000 'a')⟩

/-- C10: for each configured source, a fetch that succeeds with an
empty-string marker is treated exactly like an absent fetch: the step
changes neither the state nor the notification buckets. -/
theorem empty_marker_skips (fr : FetchResults) (st : AppState)
    (ns : Notifications) :
    (∀ pkg, fr.npmLatest pkg = some "" → npmStep fr (st, ns) pkg = (st, ns)) ∧
    (∀ t rel, fr.ghLatest t.1 t.2.1 = some rel → rel.tag = "" →
      ghStep fr (st, ns) t = (st, ns)) ∧
    (∀ info, fr.rssLatest = some info → info.id = "" →
      rssStep fr (st, ns) = (st, ns)) := by
  refine ⟨?_, ?_, ?_⟩
  · intro pkg hf
    unfold npmStep
    rw [hf]
    simp
  · intro t rel hf htag
    unfold ghStep
    rw [hf]
    simp [htag]
  · intro info hf hid
    unfold rssStep
    rw [hf]
    simp [hid]

/-- C10 witness: the theorem applied at concrete empty-marker fetches. -/
theorem empty_marker_skips_witness :
    npmStep frE (emptyState, Notifications.empty) "pkgA" =
      (emptyState, Notifications.empty) ∧
    rssStep frE (emptyState, Notifications.empty) =
      (emptyState, Notifications.empty) :=
  ⟨(empty_marker_skips frE emptyState Notifications.empty).1 "pkgA" rfl,
   (empty_marker_skips frE emptyState Notifications.empty).2.2
     ⟨"title", "link", ""⟩ rfl rfl⟩

end Notify
